import Mathlib

/-
Verification of the not-redis Python client (src/client_py/client.py)
against its design document. The client is embedded shallowly:

* bytes are `List Nat` (each entry a byte value);
* the wire stream delivered to the client before the peer closes is a
  `List Nat`; `StreamReader.readexactly` either returns the requested
  bytes or fails (asyncio.IncompleteReadError) when the stream is
  exhausted first;
* fallible Python code is modelled with `Option` / `Except`;
* the pool's bookkeeping (the `Queue` of idle connections and the
  `asyncio.Semaphore`) is explicit state.
-/

namespace NotRedis

/-- Errors the client can raise: `connectionError` for a failed
`socket`/`open_connection` attempt (OSError), `incompleteRead` for
`readexactly` hitting end of stream (asyncio.IncompleteReadError), and
`assertionError` for a failed `assert` (AssertionError). -/
inductive ClientError
  | connectionError
  | incompleteRead
  | assertionError
deriving DecidableEq

/-- Big-endian 4-byte encoding of `n`, as `len(data).to_bytes(4, byteorder='big')`
produces for `n < 2^32` (client.py line 62). -/
def toBytes4 (n : Nat) : List Nat :=
  [n / 2 ^ 24 % 256, n / 2 ^ 16 % 256, n / 2 ^ 8 % 256, n % 256]

/-- Big-endian interpretation of a byte string, as `int.from_bytes(size)`
(Python defaults to big-endian; client.py line 68). -/
def fromBytesBE (bs : List Nat) : Nat :=
  bs.foldl (fun acc b => acc * 256 + b) 0

/-- `await stream.readexactly n` on a stream that will deliver the bytes `s`
and then close: returns the first `n` bytes and the rest of the stream, or
fails with IncompleteReadError when fewer than `n` bytes arrive before the
close. -/
def readexactly (n : Nat) (s : List Nat) : Option (List Nat × List Nat) :=
  if n ≤ s.length then some (s.take n, s.drop n) else none

/-- `NotRedisConn._send` (client.py lines 60-63): prepend the 4-byte
big-endian length of `data` and write the result. `int.to_bytes(4, 'big')`
raises OverflowError when the length does not fit in 32 bits, hence the
guard. Returns the bytes put on the wire. -/
def sendFrame (data : List Nat) : Option (List Nat) :=
  if data.length < 2 ^ 32 then some (toBytes4 data.length ++ data) else none

/-- `NotRedisConn.recv` (client.py lines 65-68): read exactly 4 bytes, decode
them big-endian as the payload length, then read exactly that many payload
bytes. Returns the payload and the unread remainder of the stream, or fails
when the stream closes early. -/
def recvFrame (s : List Nat) : Option (List Nat × List Nat) :=
  match readexactly 4 s with
  | none => none
  | some (hdr, rest) => readexactly (fromBytesBE hdr) rest

theorem length_toBytes4 (n : Nat) : (toBytes4 n).length = 4 := rfl

theorem fromBytesBE_toBytes4 (n : Nat) (h : n < 2 ^ 32) :
    fromBytesBE (toBytes4 n) = n := by
  simp only [toBytes4, fromBytesBE, List.foldl]
  omega

theorem readexactly_append (l r : List Nat) (n : Nat) (h : l.length = n) :
    readexactly n (l ++ r) = some (l, r) := by
  have hle : n ≤ (l ++ r).length := by rw [List.length_append]; omega
  rw [readexactly, if_pos hle, List.take_left' h, List.drop_left' h]

theorem readexactly_fail (n : Nat) (s : List Nat) (h : s.length < n) :
    readexactly n s = none := by
  rw [readexactly, if_neg]
  omega

/-- C4: for every payload whose length fits in 32 bits, encoding it as a
4-byte big-endian length prefixed frame and then decoding that frame from a
stream reproduces the payload exactly (and consumes the whole frame). -/
theorem frame_roundtrip (data : List Nat) (h : data.length < 2 ^ 32) :
    ∃ f, sendFrame data = some f ∧ recvFrame f = some (data, []) := by
  refine ⟨toBytes4 data.length ++ data, ?_, ?_⟩
  · rw [sendFrame, if_pos h]
  · have h1 : readexactly 4 (toBytes4 data.length ++ data) =
        some (toBytes4 data.length, data) :=
      readexactly_append _ _ 4 (length_toBytes4 _)
    simp only [recvFrame, h1, fromBytesBE_toBytes4 data.length h]
    rw [readexactly, if_pos (Nat.le_refl _), List.take_length, List.drop_length]

/-- Witness for C4 at a concrete payload. -/
theorem frame_roundtrip_witness :
    ∃ f, sendFrame [72, 105] = some f ∧ recvFrame f = some ([72, 105], []) :=
  frame_roundtrip [72, 105] (by decide)

/-- C5: if the stream closes after delivering only `k < L` payload bytes
after a header declaring length `L`, or after fewer than 4 header bytes,
`recv` fails with a framing error (IncompleteReadError); it never returns a
truncated payload. -/
theorem recv_truncated (L : Nat) (chunk hdrBytes : List Nat)
    (hL : L < 2 ^ 32) (hk : chunk.length < L) (hh : hdrBytes.length < 4) :
    recvFrame (toBytes4 L ++ chunk) = none ∧ recvFrame hdrBytes = none := by
  constructor
  · have h1 : readexactly 4 (toBytes4 L ++ chunk) = some (toBytes4 L, chunk) :=
      readexactly_append _ _ 4 (length_toBytes4 _)
    simp only [recvFrame, h1, fromBytesBE_toBytes4 L hL]
    exact readexactly_fail L chunk hk
  · simp only [recvFrame, readexactly_fail 4 hdrBytes hh]

/-- Witness for C5: a declared length of 5 with only 2 payload bytes
delivered, and a 2-byte stream that ends inside the header. -/
theorem recv_truncated_witness :
    recvFrame (toBytes4 5 ++ [1, 2]) = none ∧ recvFrame [0, 0] = none :=
  recv_truncated 5 [1, 2] [0, 0] (by decide) (by decide) (by decide)

/-- The response interpretation inside `NotRedisConn._recv_with_arg`
(client.py lines 113-119): the payload `(nil)` becomes None; any other
payload is returned with its first four characters sliced off
(`prev_val[4:]`). -/
def decodeResponse (p : String) : Option String :=
  if p = "(nil)" then none else some (p.drop 4)

/-- `NotRedisConn._recv_with_arg` as a function of the `recv_str` outcome:
a framing error propagates, a received payload is decoded. -/
def recvWithArg (r : Except ClientError String) : Except ClientError (Option String) :=
  match r with
  | .error e => .error e
  | .ok v => .ok (decodeResponse v)

/-- The undecorated body of `NotRedisConn.ping` (client.py lines 91-97) as a
function of the `recv_str` outcome: `assert retval == 'PONG'` then return
the payload; a framing error propagates. -/
def pingBody (r : Except ClientError String) : Except ClientError String :=
  match r with
  | .error e => .error e
  | .ok v => if v = "PONG" then .ok v else .error .assertionError

/-- The undecorated body of `NotRedisConn.clear` (client.py lines 105-111):
`assert retval == 'CLR'` then return the payload. -/
def clearBody (r : Except ClientError String) : Except ClientError String :=
  match r with
  | .error e => .error e
  | .ok v => if v = "CLR" then .ok v else .error .assertionError

/-- C2 as stated fails: "ECHO" is a 4-character verb, yet decoding the
payload "ECHO hi" yields " hi" (only the first four characters are sliced
off, so the separating space survives), not "hi". -/
theorem decodeResponse_counterexample :
    ("ECHO" : String).length = 4 ∧
    decodeResponse ("ECHO" ++ " " ++ "hi") = some " hi" ∧
    (" hi" : String) ≠ "hi" :=
  ⟨by decide, by decide, by decide⟩

/-- C2 amended: decoding returns None iff the payload is exactly `(nil)`;
and for every payload of the form verb-space-value where the verb has 3
characters (so verb plus the separating space is the 4-character slice the
code removes), decoding returns exactly the value. -/
theorem decodeResponse_spec :
    (∀ p : String, decodeResponse p = none ↔ p = "(nil)") ∧
    (∀ verb value : String, verb.length = 3 →
      decodeResponse (verb ++ " " ++ value) = some value) := by
  constructor
  · intro p
    by_cases h : p = "(nil)" <;> simp [decodeResponse, h]
  · intro verb value h3
    obtain ⟨l⟩ := verb
    have hdl : l.length = 3 := by simpa using h3
    obtain ⟨a, b, c, rfl⟩ := List.length_eq_three.mp hdl
    have hp : (String.mk [a, b, c] ++ " " ++ value) =
        String.mk (a :: b :: c :: ' ' :: value.data) := by
      cases value; rfl
    rw [hp]
    have hne : (String.mk (a :: b :: c :: ' ' :: value.data)) ≠ "(nil)" := by
      intro hcontra
      have hdata := congrArg String.data hcontra
      have hnil : ("(nil)" : String).data = ['(', 'n', 'i', 'l', ')'] := rfl
      rw [hnil] at hdata
      simp at hdata
    rw [decodeResponse, if_neg hne, String.drop_eq]
    rfl

/-- Witness for C2 amended at the spec's own example reply "GET 1". -/
theorem decodeResponse_spec_witness :
    (decodeResponse "(nil)" = none ↔ ("(nil)" : String) = "(nil)") ∧
    decodeResponse ("GET" ++ " " ++ "1") = some "1" :=
  ⟨decodeResponse_spec.1 "(nil)", decodeResponse_spec.2 "GET" "1" (by decide)⟩

/-- C10: for every payload other than `(nil)` the decode step returns the
payload with its first four characters removed, with no check that those
characters match the verb that was sent nor that the payload is long
enough; any such payload of length at most 4 decodes to the empty string
and no error is raised. -/
theorem decodeResponse_blind_slice :
    (∀ p : String, p ≠ "(nil)" → decodeResponse p = some (p.drop 4)) ∧
    (∀ p : String, p.length ≤ 4 → decodeResponse p = some "") := by
  constructor
  · intro p h
    rw [decodeResponse, if_neg h]
  · intro p h
    have hne : p ≠ "(nil)" := by
      intro he
      rw [he] at h
      exact absurd h (by decide)
    rw [decodeResponse, if_neg hne, String.drop_eq]
    have hdl : p.data.length ≤ 4 := by cases p; simpa using h
    rw [List.drop_eq_nil_of_le hdl]

/-- Witness for C10: the 3-character payload "GET" (not a well-formed
reply) decodes to the empty string without error. -/
theorem decodeResponse_blind_slice_witness :
    decodeResponse "GET" = some (("GET" : String).drop 4) ∧
    decodeResponse "GET" = some "" :=
  ⟨decodeResponse_blind_slice.1 "GET" (by decide),
   decodeResponse_blind_slice.2 "GET" (by decide)⟩

/-- C6: the ping body fails with an AssertionError iff the reply payload
differs from the exact literal "PONG", and succeeds returning the payload
iff it equals "PONG"; likewise clear with "CLR". The check is equality of
the whole payload, not a prefix strip. -/
theorem ping_clear_exact (r : String) :
    (pingBody (.ok r) = .error .assertionError ↔ r ≠ "PONG") ∧
    (pingBody (.ok r) = .ok r ↔ r = "PONG") ∧
    (clearBody (.ok r) = .error .assertionError ↔ r ≠ "CLR") ∧
    (clearBody (.ok r) = .ok r ↔ r = "CLR") := by
  refine ⟨?_, ?_, ?_, ?_⟩
  · by_cases hr : r = "PONG" <;> simp [pingBody, hr]
  · by_cases hr : r = "PONG" <;> simp [pingBody, hr]
  · by_cases hr : r = "CLR" <;> simp [clearBody, hr]
  · by_cases hr : r = "CLR" <;> simp [clearBody, hr]

/-- The pool bookkeeping a `NotRedisConn` can touch: the FIFO `Queue` of
idle connections (identified by numeric ids; `put` appends at the tail) and
the counter of the `asyncio.Semaphore`. -/
structure PoolBook where
  queue : List Nat
  semValue : Nat
deriving DecidableEq

/-- `NotRedisConnPool.yield_conn` (client.py lines 41-43): put the
connection back on the queue, then release the semaphore. -/
def yield_conn (p : PoolBook) (conn : Nat) : PoolBook :=
  { queue := p.queue ++ [conn], semValue := p.semValue + 1 }

/-- The `yield_when_done` decorator (client.py lines 8-13): await the
wrapped coroutine, then `yield_to_pool` (which calls `yield_conn` on the
owning pool, lines 122-123). The wrapper body has no return statement, so
on success its value is Python None; if the wrapped coroutine raises, the
exception propagates before `yield_to_pool` runs and the pool is untouched. -/
def yield_when_done {α : Type} (body : Except ClientError α) (conn : Nat)
    (p : PoolBook) : Except ClientError (Option α) × PoolBook :=
  match body with
  | .ok _ => (.ok none, yield_conn p conn)
  | .error e => (.error e, p)

/-- `NotRedisConn.get` (client.py lines 73-77), decorated: the sent message
is `GET <key>`; the reply handling is `_recv_with_arg` wrapped by
`yield_when_done`. `r` is the `recv_str` outcome, `conn` this connection's
id, `p` the owning pool's bookkeeping. -/
def get (key : String) (r : Except ClientError String) (conn : Nat)
    (p : PoolBook) : String × (Except ClientError (Option (Option String)) × PoolBook) :=
  ("GET " ++ key, yield_when_done (recvWithArg r) conn p)

/-- `NotRedisConn.delete` (client.py lines 79-83), decorated. -/
def delete (key : String) (r : Except ClientError String) (conn : Nat)
    (p : PoolBook) : String × (Except ClientError (Option (Option String)) × PoolBook) :=
  ("DEL " ++ key, yield_when_done (recvWithArg r) conn p)

/-- `NotRedisConn.set` (client.py lines 85-89), decorated. -/
def set (key value : String) (r : Except ClientError String) (conn : Nat)
    (p : PoolBook) : String × (Except ClientError (Option (Option String)) × PoolBook) :=
  ("SET " ++ key ++ " " ++ value, yield_when_done (recvWithArg r) conn p)

/-- `NotRedisConn.echo` (client.py lines 99-103), decorated. -/
def echo (msg : String) (r : Except ClientError String) (conn : Nat)
    (p : PoolBook) : String × (Except ClientError (Option (Option String)) × PoolBook) :=
  ("ECHO " ++ msg, yield_when_done (recvWithArg r) conn p)

/-- `NotRedisConn.ping` (client.py lines 91-97), decorated. -/
def ping (r : Except ClientError String) (conn : Nat)
    (p : PoolBook) : String × (Except ClientError (Option String) × PoolBook) :=
  ("PING", yield_when_done (pingBody r) conn p)

/-- `NotRedisConn.clear` (client.py lines 105-111), decorated. -/
def clear (r : Except ClientError String) (conn : Nat)
    (p : PoolBook) : String × (Except ClientError (Option String) × PoolBook) :=
  ("CLR", yield_when_done (clearBody r) conn p)

/-- C1 fails on the code: the `yield_when_done` wrapper awaits the wrapped
coroutine but discards its value and has no return statement, so every
decorated operation evaluates to None. Concretely, a ping whose reply is
exactly "PONG" completes without raising, the undecorated body decodes the
reply to "PONG", yet the decorated call's value is None (`.ok none`), not
the decoded value. -/
theorem ping_returns_none (conn : Nat) (p : PoolBook) :
    pingBody (.ok "PONG") = .ok "PONG" ∧
    (ping (.ok "PONG") conn p).2.1 = .ok none ∧
    ∀ key r, (get key (.ok r) conn p).2.1 = .ok none := by
  refine ⟨by simp [pingBody], ?_, ?_⟩
  · simp [ping, yield_when_done, pingBody]
  · intro key r
    simp [get, yield_when_done, recvWithArg]

/-- C7: every decorated operation, on success, returns its connection to
the owning pool exactly once — the queue grows by exactly that connection
at the tail and the semaphore counter by exactly one — and on an error
(framing error, or protocol violation for ping/clear) the pool's queue and
semaphore are left untouched. -/
theorem ops_release_once (key value msg r rp rc : String) (e : ClientError)
    (conn : Nat) (p : PoolBook) (hp : rp ≠ "PONG") (hc : rc ≠ "CLR") :
    (get key (.ok r) conn p).2.2 = yield_conn p conn ∧
    (delete key (.ok r) conn p).2.2 = yield_conn p conn ∧
    (set key value (.ok r) conn p).2.2 = yield_conn p conn ∧
    (echo msg (.ok r) conn p).2.2 = yield_conn p conn ∧
    (ping (.ok "PONG") conn p).2.2 = yield_conn p conn ∧
    (clear (.ok "CLR") conn p).2.2 = yield_conn p conn ∧
    yield_conn p conn = ⟨p.queue ++ [conn], p.semValue + 1⟩ ∧
    (get key (.error e) conn p).2.2 = p ∧
    (delete key (.error e) conn p).2.2 = p ∧
    (set key value (.error e) conn p).2.2 = p ∧
    (echo msg (.error e) conn p).2.2 = p ∧
    (ping (.error e) conn p).2.2 = p ∧
    (clear (.error e) conn p).2.2 = p ∧
    (ping (.ok rp) conn p).2.2 = p ∧
    (clear (.ok rc) conn p).2.2 = p := by
  refine ⟨rfl, rfl, rfl, rfl, ?_, ?_, rfl, rfl, rfl, rfl, rfl, rfl, rfl, ?_, ?_⟩
  · simp [ping, yield_when_done, pingBody]
  · simp [clear, yield_when_done, clearBody]
  · simp [ping, yield_when_done, pingBody, if_neg hp]
  · simp [clear, yield_when_done, clearBody, if_neg hc]

/-- Witness for C7 at a concrete pool, connection and replies. -/
theorem ops_release_once_witness :
    (get "k" (.ok "GET 1") 0 ⟨[], 0⟩).2.2 = yield_conn ⟨[], 0⟩ 0 ∧
    (delete "k" (.ok "GET 1") 0 ⟨[], 0⟩).2.2 = yield_conn ⟨[], 0⟩ 0 ∧
    (set "k" "v" (.ok "GET 1") 0 ⟨[], 0⟩).2.2 = yield_conn ⟨[], 0⟩ 0 ∧
    (echo "m" (.ok "GET 1") 0 ⟨[], 0⟩).2.2 = yield_conn ⟨[], 0⟩ 0 ∧
    (ping (.ok "PONG") 0 ⟨[], 0⟩).2.2 = yield_conn ⟨[], 0⟩ 0 ∧
    (clear (.ok "CLR") 0 ⟨[], 0⟩).2.2 = yield_conn ⟨[], 0⟩ 0 ∧
    yield_conn ⟨[], 0⟩ 0 = ⟨[0], 1⟩ ∧
    (get "k" (.error .incompleteRead) 0 ⟨[], 0⟩).2.2 = ⟨[], 0⟩ ∧
    (delete "k" (.error .incompleteRead) 0 ⟨[], 0⟩).2.2 = ⟨[], 0⟩ ∧
    (set "k" "v" (.error .incompleteRead) 0 ⟨[], 0⟩).2.2 = ⟨[], 0⟩ ∧
    (echo "m" (.error .incompleteRead) 0 ⟨[], 0⟩).2.2 = ⟨[], 0⟩ ∧
    (ping (.error .incompleteRead) 0 ⟨[], 0⟩).2.2 = ⟨[], 0⟩ ∧
    (clear (.error .incompleteRead) 0 ⟨[], 0⟩).2.2 = ⟨[], 0⟩ ∧
    (ping (.ok "NOPE") 0 ⟨[], 0⟩).2.2 = ⟨[], 0⟩ ∧
    (clear (.ok "NOPE") 0 ⟨[], 0⟩).2.2 = ⟨[], 0⟩ :=
  ops_release_once "k" "v" "m" "GET 1" "NOPE" "NOPE" .incompleteRead 0 ⟨[], 0⟩
    (by decide) (by decide)

/-- Abstract counting state of `NotRedisConnPool`: the semaphore counter
(available permits), the number of connections sitting in the idle queue,
and the number of connections currently checked out by callers. -/
structure PoolSt where
  semValue : Nat
  idle : Nat
  out : Nat
deriving DecidableEq

/-- One completed pool transition. An `acquire` is a completed
`get_conn` (client.py lines 37-39): it needs the semaphore counter positive
(`await self._sem.acquire()` returns) and a connection in the queue
(`self._connections.get()` returns); it consumes one of each and checks the
connection out. A `release` is a `yield_conn` (lines 41-43) performed by a
holder returning a checked-out connection (caller discipline, as the design
assumes): the connection goes back to the queue and the semaphore counter
is incremented. -/
inductive PoolStep : PoolSt → PoolSt → Prop
  | acquire (s : PoolSt) (hsem : 1 ≤ s.semValue) (hidle : 1 ≤ s.idle) :
      PoolStep s ⟨s.semValue - 1, s.idle - 1, s.out + 1⟩
  | release (s : PoolSt) (hout : 1 ≤ s.out) :
      PoolStep s ⟨s.semValue + 1, s.idle + 1, s.out - 1⟩

/-- States reachable by a pool constructed with capacity `N` and fully
initialised: `__init__` (lines 20-24) sets the semaphore to `N`, and
`initialise` (lines 26-28) fills the queue with `N` connections, none
checked out. -/
inductive PoolReach (N : Nat) : PoolSt → Prop
  | init : PoolReach N ⟨N, N, 0⟩
  | step (s t : PoolSt) : PoolReach N s → PoolStep s t → PoolReach N t

theorem poolReach_invariant (N : Nat) (s : PoolSt) (h : PoolReach N s) :
    s.semValue = s.idle ∧ s.semValue + s.out = N := by
  induction h with
  | init => exact ⟨rfl, rfl⟩
  | step s t hreach hstep ih =>
    obtain ⟨ih1, ih2⟩ := ih
    cases hstep with
    | acquire hsem hidle => exact ⟨by dsimp only; omega, by dsimp only; omega⟩
    | release hout => exact ⟨by dsimp only; omega, by dsimp only; omega⟩

/-- C3: in every reachable state of a capacity-`N` pool, at most `N`
connections are checked out; and in a state where `N` are checked out no
acquire can complete — every step possible from such a state is a release
by a holder (it strictly decreases the checked-out count), so an acquiring
caller stays blocked until some holder releases. -/
theorem pool_bound (N : Nat) (s : PoolSt) (h : PoolReach N s) :
    s.out ≤ N ∧ (s.out = N → ∀ t, PoolStep s t → t.out < s.out) := by
  obtain ⟨hsi, hsn⟩ := poolReach_invariant N s h
  refine ⟨by omega, ?_⟩
  intro hfull t hstep
  cases hstep with
  | acquire hsem hidle => omega
  | release hout => dsimp only; omega

/-- Witness for C3: with capacity 1, the state after one acquire is
reachable, has one connection out (the bound holds), and the only step from
it decreases the checked-out count. -/
theorem pool_bound_witness :
    (PoolSt.mk 0 0 1).out ≤ 1 ∧
    ((PoolSt.mk 0 0 1).out = 1 →
      ∀ t, PoolStep ⟨0, 0, 1⟩ t → t.out < (PoolSt.mk 0 0 1).out) :=
  pool_bound 1 ⟨0, 0, 1⟩
    (PoolReach.step _ _ PoolReach.init
      (PoolStep.acquire ⟨1, 1, 0⟩ (by decide) (by decide)))

/-- The loop of `NotRedisConnPool.initialise` (client.py lines 26-28),
threading the queue contents: each iteration awaits `_create_new_conn`
(lines 30-35) and, if it returned a connection, `put`s it on the queue; if
an attempt raises, the exception propagates immediately and the loop stops,
leaving the queue as it was at that point. `attempts` lists the outcome the
network gives each successive creation attempt (one per loop iteration,
so its length is the pool's `size`). -/
def initialiseAux : List (Except ClientError Nat) → List Nat →
    Except ClientError Unit × List Nat
  | [], q => (.ok (), q)
  | .ok c :: rest, q => initialiseAux rest (q ++ [c])
  | .error e :: _, q => (.error e, q)

/-- `NotRedisConnPool.initialise` starting from the empty queue that
`__init__` created. Returns the outcome and the final queue contents. -/
def initialise (attempts : List (Except ClientError Nat)) :
    Except ClientError Unit × List Nat :=
  initialiseAux attempts []

theorem initialiseAux_oks (oks : List Nat) (l : List (Except ClientError Nat))
    (q : List Nat) :
    initialiseAux (oks.map Except.ok ++ l) q = initialiseAux l (q ++ oks) := by
  induction oks generalizing q with
  | nil => simp
  | cons c cs ih =>
    rw [List.map_cons, List.cons_append]
    rw [initialiseAux, ih (q ++ [c]), List.append_assoc]
    rfl

/-- C8 as stated fails: with size 2, if the first creation attempt succeeds
and the second raises, `initialise` propagates the error — but the first
connection was already `put` on the queue, so the pool is left holding a
partial pool of one usable connection, not the empty state it started in. -/
theorem initialise_partial_pool_counterexample :
    initialise [.ok 0, .error .connectionError] =
      (.error .connectionError, [0]) ∧ ([0] : List Nat) ≠ [] :=
  ⟨rfl, by decide⟩

/-- C8 amended: when all `size` attempts succeed, `initialise` succeeds and
the queue holds exactly those `size` connections in creation order; when
some attempt fails, `initialise` fails with that error, and the queue
retains exactly the connections created before the failing attempt. -/
theorem initialise_spec (oks : List Nat) (e : ClientError)
    (rest : List (Except ClientError Nat)) :
    initialise (oks.map Except.ok) = (.ok (), oks) ∧
    (oks.map (Except.ok : Nat → Except ClientError Nat)).length = oks.length ∧
    initialise (oks.map Except.ok ++ .error e :: rest) = (.error e, oks) := by
  refine ⟨?_, List.length_map _ _, ?_⟩
  · have h := initialiseAux_oks oks [] []
    rw [List.append_nil] at h
    rw [initialise, h, initialiseAux, List.nil_append]
  · rw [initialise, initialiseAux_oks oks (.error e :: rest) [], List.nil_append]
    rfl

/-- A network connection the client opens. `openSocket` is the blocking
`socket.create_connection` call; `openStream` is the asyncio
`open_connection` call producing the reader/writer pair. -/
inductive NetAction
  | openSocket (host : String) (port : Nat)
  | openStream (host : String) (port : Nat)
deriving DecidableEq

/-- Connections established by `NotRedisConn.__init__` (client.py line 50):
`socket.create_connection((host, port))`, stored in `self.socket`. -/
def connInitActions (host : String) (port : Nat) : List NetAction :=
  [.openSocket host port]

/-- Connections established by `NotRedisConn.initialise` (client.py line
57): `asyncio.open_connection(host, port)`, whose reader/writer become
`self.read` / `self.write`. -/
def connInitialiseActions (host : String) (port : Nat) : List NetAction :=
  [.openStream host port]

/-- `NotRedisConnPool._create_new_conn` (lines 30-35): construct a
`NotRedisConn` and then call its `initialise`. -/
def createNewConnActions (host : String) (port : Nat) : List NetAction :=
  connInitActions host port ++ connInitialiseActions host port

/-- The channel a connection's framed traffic uses: `_send` writes via
`self.write` (line 63) and `recv` reads via `self.read` (lines 67-68), both
ends of the asyncio stream opened in `initialise`; the socket opened in
`__init__` is never read from or written to. -/
inductive Chan
  | rawSocket
  | streamRW
deriving DecidableEq

/-- Channel used by `NotRedisConn._send` (line 63): `self.write`. -/
def sendChan : Chan := .streamRW

/-- Channel used by `NotRedisConn.recv` (lines 67-68): `self.read`. -/
def recvChan : Chan := .streamRW

/-- C9 fails on the code: constructing and initialising one `NotRedisConn`
(as `_create_new_conn` does) establishes two stream connections to the
configured host and port — a blocking socket in `__init__` and an asyncio
stream in `initialise` — not exactly one; all framed traffic then flows
over the asyncio stream only, leaving the `__init__` socket unused. -/
theorem conn_opens_two_connections (host : String) (port : Nat) :
    createNewConnActions host port =
      [.openSocket host port, .openStream host port] ∧
    (createNewConnActions host port).length = 2 ∧
    sendChan = Chan.streamRW ∧ recvChan = Chan.streamRW := by
  exact ⟨rfl, rfl, rfl, rfl⟩

end NotRedis
